import Mathlib

/-
Verification of the build orchestrator in build.py (OpenRISC specification
repository).  Every definition below is a shallow embedding of a concrete
piece of build.py; the line numbers in the doc comments refer to that file.
Strings are modelled as Lean `String`/`List Char`, the filesystem and the
process environment as explicit state records, external processes as oracle
functions passed in as parameters, and `sys.exit` / uncaught Python
exceptions as the `error` constructor of `Except`.
-/

/- ===================================================================
   Diagram extraction (DocumentBuilder.update_wave, build.py 380-435)

   update_wave reads each .edn file and extracts the text between two
   marker lines "...." using
     re.search(r'^\.\.\.\.\n(.*?)\n\.\.\.\.$', content, re.DOTALL | re.MULTILINE).
   The embedding below models exactly this search on `List Char`:
   `searchAux` scans candidate start positions left to right (the flag
   records whether the current position is at a line start, i.e. `^`),
   requires the literal "....\n" there, and then `findEnd` implements the
   lazy group `(.*?)` by taking the nearest later "\n...." that sits at a
   line end (`$` in MULTILINE mode: before a newline or at end of input).
   =================================================================== -/

/-- Line-end test for the `$` anchor in MULTILINE mode: true at end of
input or when the next character is a newline. -/
def lineEndAt : List Char → Bool
  | [] => true
  | c :: _ => c == '\n'

/-- The start delimiter of the regex: the five characters "....\n". -/
def sdelim : List Char := ['.', '.', '.', '.', '\n']

/-- The end delimiter of the regex: the five characters "\n....". -/
def edelim : List Char := ['\n', '.', '.', '.', '.']

/-- True when the input begins with the start delimiter "....\n". -/
def startDelimAt (s : List Char) : Bool := s.take 5 == sdelim

/-- True when the input begins with "\n...." followed by a line end, i.e.
the end of the regex pattern `\n\.\.\.\.$` matches here. -/
def endDelimAt (s : List Char) : Bool := (s.take 5 == edelim) && lineEndAt (s.drop 5)

/-- True when the input begins with a full marker line "...." (four dots
followed by a newline or the end of input). -/
def isMarkerLine (s : List Char) : Bool := (s.take 4 == ['.', '.', '.', '.']) && lineEndAt (s.drop 4)

/-- Number of marker lines "...." in the input.  The boolean flag records
whether the current position is at a line start (true initially and after
each newline); only line starts can begin a marker line. -/
def countMarkerLines : Bool → List Char → Nat
  | _, [] => 0
  | atStart, c :: rest =>
      (if atStart && isMarkerLine (c :: rest) then 1 else 0) + countMarkerLines (c == '\n') rest

/-- Lazy search for the end delimiter, i.e. the `(.*?)\n\.\.\.\.$` part of
the regex: returns the shortest prefix (the group) after which "\n...."
sits at a line end, or `none` when no such position exists. -/
def findEnd : List Char → Option (List Char)
  | [] => none
  | c :: rest =>
      if endDelimAt (c :: rest) then some []
      else (findEnd rest).map (fun g => c :: g)

/-- Left-to-right scan of re.search: at each line start try to match
"....\n" and then the lazy group; on failure move one character right.
The flag records whether the current position is at a line start. -/
def searchAux : Bool → List Char → Option (List Char)
  | _, [] => none
  | atStart, c :: rest =>
      if atStart && startDelimAt (c :: rest) then
        match findEnd (rest.drop 4) with
        | some g => some g
        | none => searchAux (c == '\n') rest
      else searchAux (c == '\n') rest

/-- Extraction performed by update_wave on one file's content (build.py
402-409): the value of `match.group(1)` of the regex search, or `none`
when the search fails (in which case build.py logs an error and exits). -/
def extractWave (content : List Char) : Option (List Char) := searchAux true content

/-- Line-start flag after scanning a list of characters starting from flag
`b`: true iff the last character scanned was a newline (or no character
was scanned and `b` is true). -/
def flagAfter (b : Bool) : List Char → Bool
  | [] => b
  | c :: rest => flagAfter (c == '\n') rest

/- ===================================================================
   The per-file loop of update_wave (build.py 393-432): for each .edn
   file, extract the wave content, then run wavedrom-cli to render the
   sibling .svg.  A failed extraction or a failed render calls
   Logger.error, which calls sys.exit(1): the run stops, images written
   for earlier files stay on disk, and no image is written for the
   failing or any later file.
   =================================================================== -/

/-- One diagram source file: the stem of its filename and its text. -/
structure EdnFile where
  stem : String
  content : List Char

/-- Output image name for a source file: same stem, .svg extension
(edn_file.with_suffix(".svg").name in build.py 394). -/
def svgName (stem : String) : String := stem ++ ".svg"

/-- One iteration of the update_wave loop for file `f`, given the set of
images already written.  `renderOk` is the oracle for the wavedrom-cli
subprocess exit status.  `Except.error w` models sys.exit(1) with the
images `w` written so far left on disk. -/
def processFile (renderOk : EdnFile → Bool) (f : EdnFile) (written : List String) :
    Except (List String) (List String) :=
  match extractWave f.content with
  | none => Except.error written
  | some _ =>
      if renderOk f then Except.ok (written ++ [svgName f.stem])
      else Except.error written

/-- The update_wave loop over the directory listing of .edn files, in
listing order, threading the list of images written so far. -/
def update_wave (renderOk : EdnFile → Bool) : List EdnFile → List String →
    Except (List String) (List String)
  | [], written => Except.ok written
  | f :: fs, written =>
      match processFile renderOk f written with
      | Except.error w => Except.error w
      | Except.ok w => update_wave renderOk fs w

/- ===================================================================
   Helper lemmas about marker counting and the regex search.
   =================================================================== -/

theorem flagAfter_cons (b : Bool) (c : Char) (u : List Char) :
    flagAfter b (c :: u) = flagAfter (c == '\n') u := rfl

theorem countMarkerLines_cons (b : Bool) (c : Char) (rest : List Char) :
    countMarkerLines b (c :: rest) =
      (if b && isMarkerLine (c :: rest) then 1 else 0) + countMarkerLines (c == '\n') rest := rfl

theorem countMarkerLines_cons_le (b : Bool) (c : Char) (rest : List Char) :
    countMarkerLines (c == '\n') rest ≤ countMarkerLines b (c :: rest) := by
  rw [countMarkerLines_cons]
  exact Nat.le_add_left _ _

theorem countMarkerLines_false_cons (c : Char) (rest : List Char) :
    countMarkerLines false (c :: rest) = countMarkerLines (c == '\n') rest := by
  rw [countMarkerLines_cons]
  simp

theorem isMarkerLine_dots (t : List Char) :
    isMarkerLine ('.' :: '.' :: '.' :: '.' :: t) = lineEndAt t := by
  show ((List.take 4 ('.' :: '.' :: '.' :: '.' :: t) == ['.', '.', '.', '.'])
    && lineEndAt (List.drop 4 ('.' :: '.' :: '.' :: '.' :: t))) = lineEndAt t
  have h4 : List.take 4 ('.' :: '.' :: '.' :: '.' :: t) = ['.', '.', '.', '.'] := rfl
  have h5 : List.drop 4 ('.' :: '.' :: '.' :: '.' :: t) = t := rfl
  rw [h4, h5]
  simp

theorem isMarkerLine_newline (t : List Char) : isMarkerLine ('\n' :: t) = false := by
  show ((List.take 4 ('\n' :: t) == ['.', '.', '.', '.'])
    && lineEndAt (List.drop 4 ('\n' :: t))) = false
  have h4 : List.take 4 ('\n' :: t) = '\n' :: List.take 3 t := rfl
  rw [h4]
  simp

/-- Any text of shape Z ++ "\n...." ++ t with t at a line end contains at
least one marker line, whatever flag the scan starts with. -/
theorem one_le_countMarkerLines (t : List Char) (ht : lineEndAt t = true) :
    ∀ (Z : List Char) (b : Bool), 1 ≤ countMarkerLines b (Z ++ (edelim ++ t))
  | [], b => by
      show 1 ≤ countMarkerLines b ('\n' :: '.' :: '.' :: '.' :: '.' :: t)
      rw [countMarkerLines_cons, isMarkerLine_newline]
      have hn : (('\n' : Char) == '\n') = true := by decide
      rw [hn, countMarkerLines_cons, isMarkerLine_dots, ht]
      simp
  | z :: Z, b => by
      have := one_le_countMarkerLines t ht Z (z == '\n')
      calc 1 ≤ countMarkerLines (z == '\n') (Z ++ (edelim ++ t)) := this
        _ ≤ countMarkerLines b (z :: (Z ++ (edelim ++ t))) := countMarkerLines_cons_le ..

/-- Unfolding a scan across the start delimiter "....\n": one marker line
is counted and the scan continues at a line start. -/
theorem countMarkerLines_sdelim (T : List Char) :
    countMarkerLines true (sdelim ++ T) = 1 + countMarkerLines true T := by
  show countMarkerLines true ('.' :: '.' :: '.' :: '.' :: '\n' :: T) = 1 + countMarkerLines true T
  rw [countMarkerLines_cons, isMarkerLine_dots]
  have hl : lineEndAt ('\n' :: T) = true := rfl
  rw [hl]
  have hd : (('.' : Char) == '\n') = false := by decide
  rw [hd, countMarkerLines_false_cons, hd, countMarkerLines_false_cons, hd,
    countMarkerLines_false_cons]
  have hn : (('\n' : Char) == '\n') = true := by decide
  rw [hd, countMarkerLines_false_cons, hn]
  simp

/-- Any text of shape u ++ "....\n" ++ Z ++ "\n...." ++ t, with the first
marker at a line start and t at a line end, contains at least two marker
lines. -/
theorem two_le_countMarkerLines (Z t : List Char) (ht : lineEndAt t = true) :
    ∀ (u : List Char) (b : Bool), flagAfter b u = true →
      2 ≤ countMarkerLines b (u ++ (sdelim ++ (Z ++ (edelim ++ t))))
  | [], b, hb => by
      have hb' : b = true := hb
      subst hb'
      rw [List.nil_append, countMarkerLines_sdelim]
      have := one_le_countMarkerLines t ht Z true
      omega
  | c :: u, b, hb => by
      have hb' : flagAfter (c == '\n') u = true := hb
      have := two_le_countMarkerLines Z t ht u (c == '\n') hb'
      calc 2 ≤ countMarkerLines (c == '\n') (u ++ (sdelim ++ (Z ++ (edelim ++ t)))) := this
        _ ≤ countMarkerLines b (c :: (u ++ (sdelim ++ (Z ++ (edelim ++ t))))) :=
            countMarkerLines_cons_le ..

theorem findEnd_cons (c : Char) (rest : List Char) :
    findEnd (c :: rest) =
      if endDelimAt (c :: rest) then some [] else (findEnd rest).map (fun g => c :: g) := rfl

theorem searchAux_cons (b : Bool) (c : Char) (rest : List Char) :
    searchAux b (c :: rest) =
      if b && startDelimAt (c :: rest) then
        match findEnd (rest.drop 4) with
        | some g => some g
        | none => searchAux (c == '\n') rest
      else searchAux (c == '\n') rest := rfl

/-- A successful end-delimiter test decomposes the input as "\n...." plus a
tail sitting at a line end. -/
theorem endDelimAt_eq_decomp (s : List Char) (h : endDelimAt s = true) :
    ∃ u, s = edelim ++ u ∧ lineEndAt u = true := by
  have h' := (Bool.and_eq_true _ _).mp h
  have h1 : s.take 5 = edelim := eq_of_beq h'.1
  refine ⟨s.drop 5, ?_, h'.2⟩
  conv_lhs => rw [← List.take_append_drop 5 s]
  rw [h1]

/-- A successful start-delimiter test decomposes the input as "....\n" plus
the rest. -/
theorem startDelimAt_eq_decomp (s : List Char) (h : startDelimAt s = true) :
    s = sdelim ++ s.drop 5 := by
  have h1 : s.take 5 = sdelim := eq_of_beq h
  conv_lhs => rw [← List.take_append_drop 5 s]
  rw [h1]

/-- A spurious end delimiter strictly inside the group region exhibits two
marker lines: the marker formed at the spurious position and the real
closing marker further right. -/
theorem two_le_countMarkerLines_spurious (Z t : List Char) (ht : lineEndAt t = true)
    (hz : lineEndAt (Z ++ (edelim ++ t)) = true) (b : Bool) :
    2 ≤ countMarkerLines b ('\n' :: '.' :: '.' :: '.' :: '.' :: (Z ++ (edelim ++ t))) := by
  rw [countMarkerLines_cons, isMarkerLine_newline]
  have hn : (('\n' : Char) == '\n') = true := by decide
  rw [hn]
  have h2 : countMarkerLines true ('.' :: '.' :: '.' :: '.' :: (Z ++ (edelim ++ t))) =
      1 + countMarkerLines (('.' : Char) == '\n') ('.' :: '.' :: '.' :: (Z ++ (edelim ++ t))) := by
    rw [countMarkerLines_cons, isMarkerLine_dots, hz]
    simp
  have hd : (('.' : Char) == '\n') = false := by decide
  have h3 : 1 ≤ countMarkerLines false (('.' :: '.' :: '.' :: Z) ++ (edelim ++ t)) :=
    one_le_countMarkerLines t ht ('.' :: '.' :: '.' :: Z) false
  have h4 : ('.' :: '.' :: '.' :: Z) ++ (edelim ++ t) = '.' :: '.' :: '.' :: (Z ++ (edelim ++ t)) := by
    simp
  rw [h4] at h3
  rw [hd] at h2
  omega

/-- When the text after the opening delimiter is exactly Y ++ "\n...." ++ t
with t at a line end, and the whole region contains at most one marker
line (so Y, which the closing marker does not belong to, contains none),
the lazy search for the end delimiter returns exactly Y. -/
theorem findEnd_eq (t : List Char) (ht : lineEndAt t = true) :
    ∀ (Y : List Char) (b : Bool), countMarkerLines b (Y ++ (edelim ++ t)) ≤ 1 →
      findEnd (Y ++ (edelim ++ t)) = some Y
  | [], _, _ => by
      show findEnd ('\n' :: '.' :: '.' :: '.' :: '.' :: t) = some []
      rw [findEnd_cons]
      have he : endDelimAt ('\n' :: '.' :: '.' :: '.' :: '.' :: t) = true := by
        have h1 : List.take 5 ('\n' :: '.' :: '.' :: '.' :: '.' :: t) = edelim := rfl
        have h2 : List.drop 5 ('\n' :: '.' :: '.' :: '.' :: '.' :: t) = t := rfl
        show ((List.take 5 ('\n' :: '.' :: '.' :: '.' :: '.' :: t) == edelim)
          && lineEndAt (List.drop 5 ('\n' :: '.' :: '.' :: '.' :: '.' :: t))) = true
        rw [h1, h2, ht]
        simp
      rw [he]
      simp
  | y :: Y, b, hc => by
      by_cases hdel : endDelimAt (y :: (Y ++ (edelim ++ t))) = true
      · exfalso
        obtain ⟨u, hu, hlu⟩ := endDelimAt_eq_decomp _ hdel
        have hu' : y :: (Y ++ (edelim ++ t)) = '\n' :: '.' :: '.' :: '.' :: '.' :: u := hu
        injection hu' with hy htail
        rcases Y with _ | ⟨a1, _ | ⟨a2, _ | ⟨a3, _ | ⟨a4, Y'⟩⟩⟩⟩
        · injection htail with h1 _
          exact absurd h1 (by decide)
        · injection htail with _ htail
          injection htail with h1 _
          exact absurd h1 (by decide)
        · injection htail with _ htail
          injection htail with _ htail
          injection htail with h1 _
          exact absurd h1 (by decide)
        · injection htail with _ htail
          injection htail with _ htail
          injection htail with _ htail
          injection htail with h1 _
          exact absurd h1 (by decide)
        · injection htail with ha1 htail
          injection htail with ha2 htail
          injection htail with ha3 htail
          injection htail with ha4 hrest
          subst hy; subst ha1; subst ha2; subst ha3; subst ha4
          have hzu : lineEndAt (Y' ++ (edelim ++ t)) = true := by
            have : Y' ++ (edelim ++ t) = u := by
              have := hrest
              simpa using this
            rw [this]; exact hlu
          have h2 := two_le_countMarkerLines_spurious Y' t ht hzu b
          have hshape : ('\n' :: '.' :: '.' :: '.' :: '.' :: Y') ++ (edelim ++ t) =
              '\n' :: '.' :: '.' :: '.' :: '.' :: (Y' ++ (edelim ++ t)) := by simp
          rw [hshape] at hc
          omega
      · have hne : endDelimAt (y :: (Y ++ (edelim ++ t))) = false :=
          eq_false_of_ne_true hdel
        have heq : findEnd ((y :: Y) ++ (edelim ++ t)) =
            (findEnd (Y ++ (edelim ++ t))).map (fun g => y :: g) := by
          rw [List.cons_append, findEnd_cons, hne]
          simp
        have hc' : countMarkerLines (y == '\n') (Y ++ (edelim ++ t)) ≤ 1 :=
          le_trans (countMarkerLines_cons_le b y _) (by
            rw [← List.cons_append] at *
            exact hc)
        rw [heq, findEnd_eq t ht Y (y == '\n') hc']
        rfl

/-- The left-to-right scan skips a prefix `u` that ends at a line start,
provided the whole text holds at most the two real marker lines, and then
matches and returns exactly the group X. -/
theorem searchAux_skip (X t : List Char) (ht : lineEndAt t = true) :
    ∀ (u : List Char) (b : Bool), flagAfter b u = true →
      countMarkerLines b (u ++ (sdelim ++ (X ++ (edelim ++ t)))) ≤ 2 →
      searchAux b (u ++ (sdelim ++ (X ++ (edelim ++ t)))) = some X
  | [], b, hb, hc => by
      have hb' : b = true := hb
      subst hb'
      rw [List.nil_append] at hc ⊢
      show searchAux true ('.' :: '.' :: '.' :: '.' :: '\n' :: (X ++ (edelim ++ t))) = some X
      rw [searchAux_cons]
      have hsd : startDelimAt ('.' :: '.' :: '.' :: '.' :: '\n' :: (X ++ (edelim ++ t))) = true := by
        show (List.take 5 ('.' :: '.' :: '.' :: '.' :: '\n' :: (X ++ (edelim ++ t))) == sdelim) = true
        have h1 : List.take 5 ('.' :: '.' :: '.' :: '.' :: '\n' :: (X ++ (edelim ++ t))) = sdelim := rfl
        rw [h1]
        simp
      rw [hsd]
      have hdrop : List.drop 4 ('.' :: '.' :: '.' :: '\n' :: (X ++ (edelim ++ t))) = X ++ (edelim ++ t) := rfl
      rw [countMarkerLines_sdelim] at hc
      have hc' : countMarkerLines true (X ++ (edelim ++ t)) ≤ 1 := by omega
      have hfe := findEnd_eq t ht X true hc'
      simp only [Bool.and_self, if_true, hdrop, hfe]
  | c :: u, b, hb, hc => by
      have hb' : flagAfter (c == '\n') u = true := hb
      by_cases hs : (b && startDelimAt (c :: (u ++ (sdelim ++ (X ++ (edelim ++ t)))))) = true
      · exfalso
        have hs2 : startDelimAt (c :: (u ++ (sdelim ++ (X ++ (edelim ++ t))))) = true :=
          ((Bool.and_eq_true _ _).mp hs).2
        have hdec := startDelimAt_eq_decomp _ hs2
        have hmk : isMarkerLine (c :: (u ++ (sdelim ++ (X ++ (edelim ++ t))))) = true := by
          rw [hdec]
          show isMarkerLine ('.' :: '.' :: '.' :: '.' :: '\n' ::
            List.drop 5 (c :: (u ++ (sdelim ++ (X ++ (edelim ++ t)))))) = true
          rw [isMarkerLine_dots]
          rfl
        have h2 := two_le_countMarkerLines X t ht u (c == '\n') hb'
        rw [List.cons_append, countMarkerLines_cons, hmk,
          ((Bool.and_eq_true _ _).mp hs).1] at hc
        simp only [Bool.and_self, if_true] at hc
        omega
      · have hne : (b && startDelimAt (c :: (u ++ (sdelim ++ (X ++ (edelim ++ t)))))) = false :=
          eq_false_of_ne_true hs
        have heq : searchAux b ((c :: u) ++ (sdelim ++ (X ++ (edelim ++ t)))) =
            searchAux (c == '\n') (u ++ (sdelim ++ (X ++ (edelim ++ t)))) := by
          rw [List.cons_append, searchAux_cons, hne]
          simp
        have hc' : countMarkerLines (c == '\n') (u ++ (sdelim ++ (X ++ (edelim ++ t)))) ≤ 2 := by
          have := countMarkerLines_cons_le b c (u ++ (sdelim ++ (X ++ (edelim ++ t))))
          rw [List.cons_append] at hc
          omega
        rw [heq]
        exact searchAux_skip X t ht u (c == '\n') hb' hc'

/-- A successful lazy end search decomposes its input as the group, the
end delimiter, and a tail at a line end. -/
theorem findEnd_decomp : ∀ (s g : List Char), findEnd s = some g →
    ∃ u, s = g ++ (edelim ++ u) ∧ lineEndAt u = true
  | [], g, h => by simp [findEnd] at h
  | c :: rest, g, h => by
      rw [findEnd_cons] at h
      by_cases hdel : endDelimAt (c :: rest) = true
      · rw [if_pos hdel] at h
        obtain ⟨u, hu, hlu⟩ := endDelimAt_eq_decomp _ hdel
        injection h with h'
        exact ⟨u, by rw [← h', List.nil_append]; exact hu, hlu⟩
      · rw [if_neg hdel] at h
        rcases Option.map_eq_some'.mp h with ⟨g', hg', rfl⟩
        obtain ⟨u, hu, hlu⟩ := findEnd_decomp rest g' hg'
        exact ⟨u, by rw [hu]; rfl, hlu⟩

/-- Whenever the regex search succeeds at all, the text contains at least
two marker lines. -/
theorem two_le_of_searchAux_some : ∀ (s : List Char) (b : Bool) (g : List Char),
    searchAux b s = some g → 2 ≤ countMarkerLines b s
  | [], b, g, h => by simp [searchAux] at h
  | c :: rest, b, g, h => by
      rw [searchAux_cons] at h
      by_cases hs : (b && startDelimAt (c :: rest)) = true
      · rw [if_pos hs] at h
        cases hfe : findEnd (rest.drop 4) with
        | some g0 =>
            obtain ⟨u, hu, hlu⟩ := findEnd_decomp _ _ hfe
            have hb : b = true := ((Bool.and_eq_true _ _).mp hs).1
            have hsd : startDelimAt (c :: rest) = true := ((Bool.and_eq_true _ _).mp hs).2
            have hdec := startDelimAt_eq_decomp _ hsd
            have hdrop : List.drop 5 (c :: rest) = List.drop 4 rest := rfl
            rw [hdrop, hu] at hdec
            subst hb
            rw [hdec, countMarkerLines_sdelim]
            have h1 := one_le_countMarkerLines u hlu g0 true
            omega
        | none =>
            rw [hfe] at h
            have := two_le_of_searchAux_some rest (c == '\n') g h
            have hle := countMarkerLines_cons_le b c rest
            omega
      · rw [if_neg hs] at h
        have := two_le_of_searchAux_some rest (c == '\n') g h
        have hle := countMarkerLines_cons_le b c rest
        omega

theorem flagAfter_of_last : ∀ (u : List Char) (b : Bool), u.getLast? = some '\n' →
    flagAfter b u = true
  | [], _, h => by simp at h
  | c :: u, b, h => by
      cases u with
      | nil =>
          have hc : c = '\n' := by simpa using h
          subst hc
          rfl
      | cons d u' =>
          rw [List.getLast?_cons_cons] at h
          exact flagAfter_of_last (d :: u') (c == '\n') h

theorem flagAfter_true_of (u : List Char) (hu : u = [] ∨ u.getLast? = some '\n') :
    flagAfter true u = true := by
  rcases hu with h | h
  · subst h; rfl
  · exact flagAfter_of_last u true h

theorem lineEndAt_of (t : List Char) (h : t = [] ∨ t.head? = some '\n') :
    lineEndAt t = true := by
  rcases h with h | h
  · subst h; rfl
  · cases t with
    | nil => rfl
    | cons c t' =>
        have hc : c = '\n' := by simpa using h
        subst hc
        rfl

/-- C2: for every diagram source text in which the marker line "...."
appears exactly twice, with content X strictly between the two markers
(the first marker at a line start, the second at a line end), extraction
returns exactly X with no leading or trailing marker lines; and for every
source text with at most one marker occurrence, extraction fails
deterministically and the per-file step of update_wave exits without
rendering an image for that file. -/
theorem claim_C2_diagram_extraction :
    (∀ (pre X post : List Char),
        (pre = [] ∨ pre.getLast? = some '\n') →
        (post = [] ∨ post.head? = some '\n') →
        countMarkerLines true (pre ++ (sdelim ++ (X ++ (edelim ++ post)))) = 2 →
        extractWave (pre ++ (sdelim ++ (X ++ (edelim ++ post)))) = some X)
    ∧ (∀ (content : List Char), countMarkerLines true content ≤ 1 →
        extractWave content = none
        ∧ ∀ (renderOk : EdnFile → Bool) (stem : String) (written : List String),
            processFile renderOk ⟨stem, content⟩ written = Except.error written) := by
  constructor
  · intro pre X post hpre hpost hcount
    exact searchAux_skip X post (lineEndAt_of post hpost) pre true
      (flagAfter_true_of pre hpre) (le_of_eq hcount)
  · intro content hc
    have hnone : extractWave content = none := by
      cases hx : extractWave content with
      | none => rfl
      | some g =>
          exfalso
          have := two_le_of_searchAux_some content true g hx
          omega
    refine ⟨hnone, ?_⟩
    intro renderOk stem written
    simp [processFile, hnone]

theorem claim_C2_diagram_extraction_witness :
    extractWave (([] : List Char) ++ (sdelim ++ ((['a', 'b', 'c'] : List Char) ++ (edelim ++ ([] : List Char))))) = some ['a', 'b', 'c']
    ∧ extractWave ['x'] = none := by
  constructor
  · exact claim_C2_diagram_extraction.1 [] ['a', 'b', 'c'] [] (Or.inl rfl) (Or.inl rfl) (by decide)
  · exact (claim_C2_diagram_extraction.2 ['x'] (by decide)).1

/-- C10: diagram regeneration is not atomic across the set of source
files: files are processed one at a time in listing order, each rendered
image is written before the next file is read, and when regeneration fails
on some file (failed extraction or failed external render) every image
rendered for earlier files in that run remains written, while no image is
produced for the failing file or any later file. -/
theorem claim_C10_regeneration_not_atomic (renderOk : EdnFile → Bool) (written : List String)
    (fs1 : List EdnFile) (f : EdnFile) (fs2 : List EdnFile)
    (h1 : ∀ g ∈ fs1, (extractWave g.content).isSome = true ∧ renderOk g = true)
    (hf : extractWave f.content = none ∨ renderOk f = false) :
    update_wave renderOk (fs1 ++ (f :: fs2)) written =
      Except.error (written ++ fs1.map (fun g => svgName g.stem)) := by
  induction fs1 generalizing written with
  | nil =>
      simp only [List.nil_append, List.map_nil, List.append_nil]
      rcases hf with hf | hf
      · simp [update_wave, processFile, hf]
      · cases hx : extractWave f.content with
        | none => simp [update_wave, processFile, hx]
        | some g => simp [update_wave, processFile, hx, hf]
  | cons g fs1' ih =>
      have hg := h1 g (List.mem_cons_self g fs1')
      rcases Option.isSome_iff_exists.mp hg.1 with ⟨x, hx⟩
      have hstep : processFile renderOk g written = Except.ok (written ++ [svgName g.stem]) := by
        simp [processFile, hx, hg.2]
      show update_wave renderOk (g :: (fs1' ++ (f :: fs2))) written = _
      rw [show update_wave renderOk (g :: (fs1' ++ (f :: fs2))) written =
        match processFile renderOk g written with
        | Except.error w => Except.error w
        | Except.ok w => update_wave renderOk (fs1' ++ (f :: fs2)) w from rfl, hstep]
      rw [show (match Except.ok (written ++ [svgName g.stem]) with
        | Except.error w => Except.error w
        | Except.ok w => update_wave renderOk (fs1' ++ (f :: fs2)) w) =
        update_wave renderOk (fs1' ++ (f :: fs2)) (written ++ [svgName g.stem]) from rfl]
      rw [ih (written ++ [svgName g.stem]) (fun a ha => h1 a (List.mem_cons_of_mem g ha))]
      simp

theorem claim_C10_regeneration_not_atomic_witness :
    update_wave (fun _ => true)
      [⟨"a", ['.', '.', '.', '.', '\n', 'W', '\n', '.', '.', '.', '.']⟩, ⟨"b", ['x']⟩] [] =
      Except.error ["a.svg"] := by
  exact claim_C10_regeneration_not_atomic (fun _ => true) []
    [⟨"a", ['.', '.', '.', '.', '\n', 'W', '\n', '.', '.', '.', '.']⟩] ⟨"b", ['x']⟩ []
    (by decide) (Or.inl (by decide))

/- ===================================================================
   BuildOptions assembly (build.py 119-129, 102-115 and
   DocumentBuilder.__init__ lines 217-223).

   OPTIONS is a module-level Python list.  DocumentBuilder.__init__ does
     self.options = OPTIONS
   which binds self.options to the very same list object (no copy), and
   then appends the profile flags in place:
     self.options.append(type_config[build_type]["watermark_opt"])
     self.options.append("-a revnumber=" + (build_time if draft else version))
     self.options.append("-a revremark=" + description)
   `init_options` below is that mutation as a function from the list
   value before construction to the list value after construction; the
   returned list is simultaneously the new value of the global OPTIONS
   and the builder's options (they alias).  An unknown build type raises
   KeyError on the type_config lookup, modelled by `none`.
   `build_time` stands for datetime.now().strftime("%Y%m%d"), i.e. the
   invocation's date in YYYYMMDD form (build.py 199).
   =================================================================== -/

/-- Root path of the repository checkout (os.path.dirname of build.py). -/
def ROOT_PATH : String := "/repo"

/-- Initial value of the module-level OPTIONS list (build.py 119-129). -/
def OPTIONS : List String := [
  "--trace",
  "-a", "compress",
  "-a mathematical-format=svg",
  "-a pdf-fontsdir=docs-resources/fonts",
  "-a pdf-theme=docs-resources/themes/openrisc-pdf.yml",
  "-a docinfo=shared",
  "-D build",
  "-a bibtex-file=" ++ ROOT_PATH ++ "/assets/resource/openrisc.bib",
  "--failure-level=WARN"]

/-- Per-profile configuration entry (CONFIGS["type_config"],
build.py 102-115). -/
structure TypeConfig where
  watermark_opt : String
  description : String

/-- The CONFIGS["type_config"] dictionary (build.py 102-115); lookup of
an unknown key raises KeyError, modelled by `none`.  The description
strings carry the literal single quotes of the source (escaped \x27). -/
def type_config : String → Option TypeConfig
  | "draft" => some ⟨"-a draft-watermark", "\x27DRAFT---NOT AN OFFICIAL RELEASE\x27"⟩
  | "intermediate" => some ⟨"", "\x27Intermediate Release\x27"⟩
  | "official" => some ⟨"", "\x27Official Release\x27"⟩
  | _ => none

/-- The in-place option mutation of DocumentBuilder.__init__ (build.py
217-223) as a function of the pre-construction list value. -/
def init_options (opts : List String) (build_type version build_time : String) :
    Option (List String) :=
  match type_config build_type with
  | none => none
  | some tc =>
      some (((opts ++ [tc.watermark_opt]) ++
        [if build_type = "draft" then "-a revnumber=" ++ build_time
         else "-a revnumber=" ++ version]) ++
        ["-a revremark=" ++ tc.description])

/-- Boolean prefix test on character lists. -/
def isPrefixChars : List Char → List Char → Bool
  | [], _ => true
  | _ :: _, [] => false
  | a :: p, b :: s => a == b && isPrefixChars p s

/-- A revision-label flag: an option of the form "-a revnumber=...". -/
def isRevnumberFlag (s : String) : Bool := isPrefixChars ("-a revnumber=".data) s.data

/-- A description flag: an option of the form "-a revremark=...". -/
def isRevremarkFlag (s : String) : Bool := isPrefixChars ("-a revremark=".data) s.data

/-- The watermark flag appended for the draft profile. -/
def watermarkFlag : String := "-a draft-watermark"

theorem isPrefixChars_append : ∀ (p t : List Char), isPrefixChars p (p ++ t) = true
  | [], _ => rfl
  | a :: p, t => by
      show (a == a && isPrefixChars p (p ++ t)) = true
      rw [isPrefixChars_append p t]
      simp

theorem isRevnumberFlag_value (x : String) : isRevnumberFlag ("-a revnumber=" ++ x) = true := by
  show isPrefixChars ("-a revnumber=".data) ("-a revnumber=".data ++ x.data) = true
  exact isPrefixChars_append _ _

theorem isRevremarkFlag_value (x : String) : isRevremarkFlag ("-a revremark=" ++ x) = true := by
  show isPrefixChars ("-a revremark=".data) ("-a revremark=".data ++ x.data) = true
  exact isPrefixChars_append _ _

theorem isRevnumberFlag_revremark (x : String) :
    isRevnumberFlag ("-a revremark=" ++ x) = false := rfl

theorem isRevremarkFlag_revnumber (x : String) :
    isRevremarkFlag ("-a revnumber=" ++ x) = false := rfl

theorem revnumber_ne_watermark (x : String) : "-a revnumber=" ++ x ≠ watermarkFlag := by
  intro h
  have h2 : isPrefixChars ['-', 'a', ' ', 'd'] (("-a revnumber=" ++ x).data) =
      isPrefixChars ['-', 'a', ' ', 'd'] (watermarkFlag.data) := by rw [h]
  rw [show isPrefixChars ['-', 'a', ' ', 'd'] (("-a revnumber=" ++ x).data) = false from rfl,
    show isPrefixChars ['-', 'a', ' ', 'd'] (watermarkFlag.data) = true from rfl] at h2
  exact absurd h2 (by decide)

theorem countP_OPTIONS_rev : OPTIONS.countP (fun s => isRevnumberFlag s) = 0 := by decide

theorem countP_OPTIONS_remark : OPTIONS.countP (fun s => isRevremarkFlag s) = 0 := by decide

theorem watermark_not_mem_OPTIONS : watermarkFlag ∉ OPTIONS := by decide

/-- Effect of one DocumentBuilder construction on the option list: for
each supported release profile it appends exactly one revision flag and
exactly one description flag, and it appends the watermark flag exactly
when the profile is draft. -/
theorem init_options_spec (opts o : List String) (t v time : String)
    (ht : t ∈ ["draft", "intermediate", "official"])
    (h : init_options opts t v time = some o) :
    o.countP (fun s => isRevnumberFlag s) = opts.countP (fun s => isRevnumberFlag s) + 1
    ∧ o.countP (fun s => isRevremarkFlag s) = opts.countP (fun s => isRevremarkFlag s) + 1
    ∧ (watermarkFlag ∈ o ↔ (watermarkFlag ∈ opts ∨ t = "draft")) := by
  have ht' : t = "draft" ∨ t = "intermediate" ∨ t = "official" := by simpa using ht
  rcases ht' with rfl | rfl | rfl
  · have h0 : init_options opts "draft" v time =
        some (((opts ++ ["-a draft-watermark"]) ++ ["-a revnumber=" ++ time]) ++
          ["-a revremark=" ++ "\x27DRAFT---NOT AN OFFICIAL RELEASE\x27"]) := rfl
    rw [h0] at h
    have heq := Option.some.inj h
    subst heq
    refine ⟨?_, ?_, ?_⟩
    · simp only [List.countP_append, List.countP_cons, List.countP_nil,
        isRevnumberFlag_value, isRevnumberFlag_revremark,
        show isRevnumberFlag "-a draft-watermark" = false from rfl]
      simp only [Bool.false_eq_true, if_false, if_true]
    · simp only [List.countP_append, List.countP_cons, List.countP_nil,
        isRevremarkFlag_value, isRevremarkFlag_revnumber,
        show isRevremarkFlag "-a draft-watermark" = false from rfl]
      simp only [Bool.false_eq_true, if_false, if_true]
    · refine iff_of_true ?_ (Or.inr rfl)
      have hmem : watermarkFlag ∈ opts ++ ["-a draft-watermark"] :=
        List.mem_append_right _ (by simp [watermarkFlag])
      exact List.mem_append_left _ (List.mem_append_left _ hmem)
  · have h0 : init_options opts "intermediate" v time =
        some (((opts ++ [""]) ++ ["-a revnumber=" ++ v]) ++
          ["-a revremark=" ++ "\x27Intermediate Release\x27"]) := rfl
    rw [h0] at h
    have heq := Option.some.inj h
    subst heq
    refine ⟨?_, ?_, ?_⟩
    · simp only [List.countP_append, List.countP_cons, List.countP_nil,
        isRevnumberFlag_value, isRevnumberFlag_revremark,
        show isRevnumberFlag "" = false from rfl]
      simp only [Bool.false_eq_true, if_false, if_true]
    · simp only [List.countP_append, List.countP_cons, List.countP_nil,
        isRevremarkFlag_value, isRevremarkFlag_revnumber,
        show isRevremarkFlag "" = false from rfl]
      simp only [Bool.false_eq_true, if_false, if_true]
    · constructor
      · intro hmem
        rcases List.mem_append.mp hmem with hmem | hmem
        · rcases List.mem_append.mp hmem with hmem | hmem
          · rcases List.mem_append.mp hmem with hmem | hmem
            · exact Or.inl hmem
            · exact absurd (List.mem_singleton.mp hmem) (by decide)
          · exact absurd (List.mem_singleton.mp hmem).symm (revnumber_ne_watermark v)
        · exact absurd (List.mem_singleton.mp hmem) (by decide)
      · intro hmem
        rcases hmem with hmem | hmem
        · exact List.mem_append_left _ (List.mem_append_left _ (List.mem_append_left _ hmem))
        · exact absurd hmem (by decide)
  · have h0 : init_options opts "official" v time =
        some (((opts ++ [""]) ++ ["-a revnumber=" ++ v]) ++
          ["-a revremark=" ++ "\x27Official Release\x27"]) := rfl
    rw [h0] at h
    have heq := Option.some.inj h
    subst heq
    refine ⟨?_, ?_, ?_⟩
    · simp only [List.countP_append, List.countP_cons, List.countP_nil,
        isRevnumberFlag_value, isRevnumberFlag_revremark,
        show isRevnumberFlag "" = false from rfl]
      simp only [Bool.false_eq_true, if_false, if_true]
    · simp only [List.countP_append, List.countP_cons, List.countP_nil,
        isRevremarkFlag_value, isRevremarkFlag_revnumber,
        show isRevremarkFlag "" = false from rfl]
      simp only [Bool.false_eq_true, if_false, if_true]
    · constructor
      · intro hmem
        rcases List.mem_append.mp hmem with hmem | hmem
        · rcases List.mem_append.mp hmem with hmem | hmem
          · rcases List.mem_append.mp hmem with hmem | hmem
            · exact Or.inl hmem
            · exact absurd (List.mem_singleton.mp hmem) (by decide)
          · exact absurd (List.mem_singleton.mp hmem).symm (revnumber_ne_watermark v)
        · exact absurd (List.mem_singleton.mp hmem) (by decide)
      · intro hmem
        rcases hmem with hmem | hmem
        · exact List.mem_append_left _ (List.mem_append_left _ (List.mem_append_left _ hmem))
        · exact absurd hmem (by decide)

/-- C1: for every supported release profile (draft, intermediate,
official), the option sequence assembled at DocumentBuilder construction
(starting from the pristine module-level OPTIONS of a fresh process)
contains exactly one revision-label flag ("-a revnumber=...") and exactly
one description flag ("-a revremark=..."), and contains the watermark
flag if and only if the profile is draft. -/
theorem claim_C1_build_options_flags (t : String)
    (ht : t ∈ ["draft", "intermediate", "official"]) (v time : String)
    (o : List String) (h : init_options OPTIONS t v time = some o) :
    o.countP (fun s => isRevnumberFlag s) = 1
    ∧ o.countP (fun s => isRevremarkFlag s) = 1
    ∧ (watermarkFlag ∈ o ↔ t = "draft") := by
  obtain ⟨h1, h2, h3⟩ := init_options_spec OPTIONS o t v time ht h
  rw [countP_OPTIONS_rev] at h1
  rw [countP_OPTIONS_remark] at h2
  exact ⟨h1, h2, h3.trans (or_iff_right watermark_not_mem_OPTIONS)⟩

theorem claim_C1_build_options_flags_witness :
    (((OPTIONS ++ ["-a draft-watermark"]) ++ ["-a revnumber=20260101"]) ++
      ["-a revremark=\x27DRAFT---NOT AN OFFICIAL RELEASE\x27"]).countP
        (fun s => isRevnumberFlag s) = 1
    ∧ (((OPTIONS ++ ["-a draft-watermark"]) ++ ["-a revnumber=20260101"]) ++
      ["-a revremark=\x27DRAFT---NOT AN OFFICIAL RELEASE\x27"]).countP
        (fun s => isRevremarkFlag s) = 1
    ∧ (watermarkFlag ∈ (((OPTIONS ++ ["-a draft-watermark"]) ++ ["-a revnumber=20260101"]) ++
      ["-a revremark=\x27DRAFT---NOT AN OFFICIAL RELEASE\x27"]) ↔ "draft" = "draft") :=
  claim_C1_build_options_flags "draft" (by decide) "1.4.0" "20260101" _ rfl

/-- C7: with the draft profile, the assembled options include the
watermark flag and a revision flag whose value is the invocation's date
(build_time, the strftime("%Y%m%d") stamp of build.py 199); with the
official profile and version override 2.0.0, the assembled options
include the revision flag with value 2.0.0 and no watermark flag. -/
theorem claim_C7_profile_scenarios (v time : String) :
    (watermarkFlag ∈ (init_options OPTIONS "draft" v time).getD []
      ∧ ("-a revnumber=" ++ time) ∈ (init_options OPTIONS "draft" v time).getD [])
    ∧ ("-a revnumber=2.0.0" ∈ (init_options OPTIONS "official" "2.0.0" time).getD []
      ∧ watermarkFlag ∉ (init_options OPTIONS "official" "2.0.0" time).getD []) := by
  refine ⟨⟨?_, ?_⟩, ?_, ?_⟩
  · show watermarkFlag ∈ ((OPTIONS ++ ["-a draft-watermark"]) ++ ["-a revnumber=" ++ time]) ++
      ["-a revremark=" ++ "\x27DRAFT---NOT AN OFFICIAL RELEASE\x27"]
    exact List.mem_append_left _ (List.mem_append_left _
      (List.mem_append_right _ (by simp [watermarkFlag])))
  · show ("-a revnumber=" ++ time) ∈ ((OPTIONS ++ ["-a draft-watermark"]) ++
      ["-a revnumber=" ++ time]) ++ ["-a revremark=" ++ "\x27DRAFT---NOT AN OFFICIAL RELEASE\x27"]
    exact List.mem_append_left _ (List.mem_append_right _ (by simp))
  · show "-a revnumber=2.0.0" ∈ ((OPTIONS ++ [""]) ++ ["-a revnumber=" ++ "2.0.0"]) ++
      ["-a revremark=" ++ "\x27Official Release\x27"]
    exact by decide
  · show watermarkFlag ∉ ((OPTIONS ++ [""]) ++ ["-a revnumber=" ++ "2.0.0"]) ++
      ["-a revremark=" ++ "\x27Official Release\x27"]
    exact by decide

/-- C9: DocumentBuilder.__init__ binds self.options to the module-level
OPTIONS list itself and appends the per-profile flags in place, so the
builder's option sequence aliases the mutated global; constructing a
second DocumentBuilder in the same process appends the per-profile flags
onto the already-extended list, yielding an option sequence that contains
a revision flag and a description flag twice — the exactly-one-revision-
flag property holds only for the first builder constructed per process. -/
theorem claim_C9_options_alias_global (t v1 time1 v2 time2 : String)
    (ht : t ∈ ["draft", "intermediate", "official"]) (o1 o2 : List String)
    (h1 : init_options OPTIONS t v1 time1 = some o1)
    (h2 : init_options o1 t v2 time2 = some o2) :
    o1.countP (fun s => isRevnumberFlag s) = 1
    ∧ o2.countP (fun s => isRevnumberFlag s) = 2
    ∧ o2.countP (fun s => isRevremarkFlag s) = 2 := by
  obtain ⟨a1, b1, _⟩ := init_options_spec OPTIONS o1 t v1 time1 ht h1
  obtain ⟨a2, b2, _⟩ := init_options_spec o1 o2 t v2 time2 ht h2
  rw [countP_OPTIONS_rev] at a1
  rw [countP_OPTIONS_remark] at b1
  refine ⟨a1, ?_, ?_⟩
  · rw [a2, a1]
  · rw [b2, b1]

theorem claim_C9_options_alias_global_witness :
    ((((OPTIONS ++ ["-a draft-watermark"]) ++ ["-a revnumber=20260101"]) ++
      ["-a revremark=\x27DRAFT---NOT AN OFFICIAL RELEASE\x27"]).countP
        (fun s => isRevnumberFlag s) = 1)
    ∧ ((((((OPTIONS ++ ["-a draft-watermark"]) ++ ["-a revnumber=20260101"]) ++
      ["-a revremark=\x27DRAFT---NOT AN OFFICIAL RELEASE\x27"]) ++ ["-a draft-watermark"]) ++
      ["-a revnumber=20260102"] ++
      ["-a revremark=\x27DRAFT---NOT AN OFFICIAL RELEASE\x27"]).countP
        (fun s => isRevnumberFlag s) = 2)
    ∧ ((((((OPTIONS ++ ["-a draft-watermark"]) ++ ["-a revnumber=20260101"]) ++
      ["-a revremark=\x27DRAFT---NOT AN OFFICIAL RELEASE\x27"]) ++ ["-a draft-watermark"]) ++
      ["-a revnumber=20260102"] ++
      ["-a revremark=\x27DRAFT---NOT AN OFFICIAL RELEASE\x27"]).countP
        (fun s => isRevremarkFlag s) = 2) :=
  claim_C9_options_alias_global "draft" "1.4.0" "20260101" "1.4.0" "20260102"
    (by decide) _ _ rfl rfl

/- ===================================================================
   Target selection and the main dispatch (build.py 543-545, 208-215,
   578-587).

   parse_args accepts the positional target from the closed choice list
   ["all", "pdf", "html", "epub", "tags"].  DocumentBuilder.__init__
   selects the output documents via CONFIGS["docs"][build_target] (a dict
   with keys pdf/html/epub/json only; an absent key raises KeyError,
   modelled by `none`).  main then dispatches: a target in
   ["pdf", "json", "epub", "html"] is built alone; "all" builds pdf,
   epub, html, json in that fixed order; anything else (including the
   accepted selector "tags") reaches Logger.error "Unsupported build
   target", modelled by `none`.
   =================================================================== -/

/-- The positional-argument choices of parse_args (build.py 543-545). -/
def targetChoices : List String := ["all", "pdf", "html", "epub", "tags"]

/-- The CONFIGS["docs"] dictionary (build.py 84-89); lookup of an absent
key raises KeyError, modelled by `none`. -/
def docsFor : String → Option String
  | "pdf" => some "openrisc-manual.pdf"
  | "html" => some "openrisc-manual.html"
  | "epub" => some "openrisc-manual.epub"
  | "json" => some "openrisc-manual-norm-tags.json"
  | _ => none

/-- Document-list selection of DocumentBuilder.__init__ (build.py
208-215): for "all" the four filenames in the dict's own order (json
first); otherwise the single filename for the target, with a KeyError
(`none`) when CONFIGS["docs"] has no such key. -/
def builderDocs (build_target : String) : Option (List String) :=
  if build_target = "all" then
    some ["openrisc-manual-norm-tags.json", "openrisc-manual.pdf",
      "openrisc-manual.html", "openrisc-manual.epub"]
  else (docsFor build_target).map (fun d => [d])

/-- The build dispatch of main (build.py 578-587): the sequence of
build_for_all invocations, or `none` for the Logger.error "Unsupported
build target" exit.  The `docs` parameter is the builder's document list
(whatever its order); the dispatch never consults it, which is exactly
how the source fixes the "all" order independently of configuration
ordering elsewhere. -/
def mainBuildCalls (_docs : List String) (build_target : String) : Option (List String) :=
  if build_target = "pdf" ∨ build_target = "json" ∨ build_target = "epub"
      ∨ build_target = "html" then
    some [build_target]
  else if build_target = "all" then some ["pdf", "epub", "html", "json"]
  else none

/-- C3: a build invocation with the "all" target selector executes the
four per-format builds in the fixed order print (pdf), e-book (epub),
web (html), tag-index (json) last, for every invocation and regardless
of the ordering of the document list elsewhere in configuration. -/
theorem claim_C3_all_build_order (docs : List String) :
    mainBuildCalls docs "all" = some ["pdf", "epub", "html", "json"] := rfl

/-- C5: the claim that every one of the five accepted target selectors
maps to its declared output filename fails for the selector "tags": the
module docstring (build.py 31) documents "tags   Build norm tags only"
and parse_args accepts it, but CONFIGS["docs"] has no "tags" key, so
DocumentBuilder.__init__ raises KeyError (outside main's try block), and
main's dispatch list names "json", not "tags", so the selector could
never reach a build either.  The other four selectors do map to their
declared outputs. -/
theorem claim_C5_tags_selector_broken :
    "tags" ∈ targetChoices
    ∧ builderDocs "tags" = none
    ∧ mainBuildCalls [] "tags" = none
    ∧ builderDocs "pdf" = some ["openrisc-manual.pdf"]
    ∧ builderDocs "html" = some ["openrisc-manual.html"]
    ∧ builderDocs "epub" = some ["openrisc-manual.epub"]
    ∧ builderDocs "all" = some ["openrisc-manual-norm-tags.json", "openrisc-manual.pdf",
        "openrisc-manual.html", "openrisc-manual.epub"]
    ∧ mainBuildCalls [] "pdf" = some ["pdf"]
    ∧ mainBuildCalls [] "html" = some ["html"]
    ∧ mainBuildCalls [] "epub" = some ["epub"] := by
  refine ⟨by decide, rfl, rfl, rfl, rfl, rfl, rfl, rfl, rfl, rfl⟩

/- ===================================================================
   The "all" build run and finalization (build.py 437-468, 519-529,
   580-589).

   build_for_all invokes the external renderer; on a non-zero exit the
   subprocess.CalledProcessError handler calls Logger.error, and
   Logger.error (build.py 180-183) calls sys.exit(1).  SystemExit is not
   an Exception subclass, so main's `except Exception` does not catch it:
   the process terminates immediately and clean_work_dir — the
   finalization that copies each artifact from its workspace into the
   shared build directory — never runs.  The state record tracks which
   artifacts exist in per-target workspaces and which have been promoted
   to the shared build directory; `Except.error fs` models process exit
   with filesystem state fs.
   =================================================================== -/

/-- Filesystem state relevant to the all-run: artifacts rendered into
per-target workspaces, and artifacts promoted (copied) into the shared
build directory. -/
structure BuildFS where
  workArtifacts : List String
  promoted : List String
deriving DecidableEq

/-- build_for_all for one target (build.py 437-468): on renderer success
the artifact appears in the target's workspace; on non-zero renderer exit
Logger.error exits the process (state unchanged, nothing promoted). -/
def build_for_all (renderOk : String → Bool) (target : String) (fs : BuildFS) :
    Except BuildFS BuildFS :=
  if renderOk target then
    Except.ok { fs with workArtifacts := fs.workArtifacts ++ [target] }
  else Except.error fs

/-- clean_work_dir (build.py 519-529): copy each document from its
workspace into the shared build directory and remove the workspaces. -/
def clean_work_dir (docs : List String) (fs : BuildFS) : BuildFS :=
  { fs with promoted := fs.promoted ++ docs, workArtifacts := [] }

/-- The document filenames promoted after an "all" run, in the order
clean_work_dir iterates self.docs (build.py 209-213). -/
def allDocs : List String := ["openrisc-manual-norm-tags.json", "openrisc-manual.pdf",
  "openrisc-manual.html", "openrisc-manual.epub"]

/-- The "all" branch of main (build.py 580-589): build pdf, epub, html,
json in order, then finalize with clean_work_dir; any build failure exits
the process before finalization. -/
def runAll (renderOk : String → Bool) (fs : BuildFS) : Except BuildFS BuildFS :=
  match build_for_all renderOk "pdf" fs with
  | Except.error e => Except.error e
  | Except.ok fs1 =>
      match build_for_all renderOk "epub" fs1 with
      | Except.error e => Except.error e
      | Except.ok fs2 =>
          match build_for_all renderOk "html" fs2 with
          | Except.error e => Except.error e
          | Except.ok fs3 =>
              match build_for_all renderOk "json" fs3 with
              | Except.error e => Except.error e
              | Except.ok fs4 => Except.ok (clean_work_dir allDocs fs4)

/-- C4 counterexample: with a renderer that succeeds for pdf and fails
for epub, the "all" run exits with the pdf artifact still sitting in its
workspace and the promoted set empty — the already-built pdf target is
NOT promoted to the shared output directory, contradicting the claim
that finalization still proceeds for targets built before the failure. -/
theorem claim_C4_counterexample :
    runAll (fun t => t == "pdf") ⟨[], []⟩ = Except.error ⟨["pdf"], []⟩
    ∧ (fun t => t == "pdf") "pdf" = true
    ∧ (⟨["pdf"], []⟩ : BuildFS).promoted = [] :=
  ⟨rfl, rfl, rfl⟩

/-- C4 (amended): if any target of an "all" run fails to build (the
external renderer exits non-zero for pdf, epub, html or json), the
process exits during the build phase via Logger.error's sys.exit(1):
finalization does not run, and no artifact — including those of targets
already built successfully before the failure — is promoted from its
workspace to the shared output directory (the promoted set is exactly
what it was before the run). -/
theorem claim_C4_no_promotion_on_failure (renderOk : String → Bool) (fs : BuildFS)
    (hfail : renderOk "pdf" = false ∨ renderOk "epub" = false
      ∨ renderOk "html" = false ∨ renderOk "json" = false) :
    ∃ fs', runAll renderOk fs = Except.error fs' ∧ fs'.promoted = fs.promoted := by
  cases hpdf : renderOk "pdf" with
  | false => exact ⟨fs, by simp [runAll, build_for_all, hpdf], rfl⟩
  | true =>
      cases hepub : renderOk "epub" with
      | false =>
          exact ⟨{ fs with workArtifacts := fs.workArtifacts ++ ["pdf"] },
            by simp [runAll, build_for_all, hpdf, hepub], rfl⟩
      | true =>
          cases hhtml : renderOk "html" with
          | false =>
              exact ⟨{ fs with workArtifacts := fs.workArtifacts ++ ["pdf", "epub"] },
                by simp [runAll, build_for_all, hpdf, hepub, hhtml], rfl⟩
          | true =>
              cases hjson : renderOk "json" with
              | false =>
                  exact ⟨{ fs with workArtifacts := fs.workArtifacts ++ ["pdf", "epub", "html"] },
                    by simp [runAll, build_for_all, hpdf, hepub, hhtml, hjson], rfl⟩
              | true =>
                  exfalso
                  rcases hfail with h | h | h | h
                  · rw [hpdf] at h; exact absurd h (by decide)
                  · rw [hepub] at h; exact absurd h (by decide)
                  · rw [hhtml] at h; exact absurd h (by decide)
                  · rw [hjson] at h; exact absurd h (by decide)

theorem claim_C4_no_promotion_on_failure_witness :
    ∃ fs', runAll (fun t => t == "pdf") ⟨[], []⟩ = Except.error fs'
      ∧ fs'.promoted = (⟨[], []⟩ : BuildFS).promoted :=
  claim_C4_no_promotion_on_failure (fun t => t == "pdf") ⟨[], []⟩ (Or.inr (Or.inl rfl))

/- ===================================================================
   Workspace setup (DocumentBuilder._workdir_setup, build.py 365-378).

   For each document, the workspace path is build_dir/<doc>.workdir.  If
   that directory does not exist it is created (makedirs exist_ok=True)
   and three symbolic links (src, docs-resources, assets) are created in
   it; if it already exists, the directory is reused as-is without
   re-linking.  Either way self.work_dir[doc.split(".")[1]] is set to the
   workspace path (a dict assignment, modelled as an association-list
   update).  os.symlink raises FileExistsError when the link path already
   exists, modelled by `Except.error`.
   =================================================================== -/

/-- Filesystem and builder state touched by _workdir_setup: existing
directories, existing symbolic links (link path, target path), and the
self.work_dir mapping. -/
structure WsState where
  dirs : List String
  links : List (String × String)
  workMap : List (String × String)
deriving DecidableEq

/-- Python dict assignment work_dir[k] = v on an association list. -/
def setWorkMap (m : List (String × String)) (k v : String) : List (String × String) :=
  if m.any (fun p => p.1 == k) then m.map (fun p => if p.1 = k then (k, v) else p)
  else m ++ [(k, v)]

/-- Python str.split("."): split a character list at every dot. -/
def splitDot : List Char → List (List Char)
  | [] => [[]]
  | c :: rest =>
      match splitDot rest with
      | [] => [[c]]
      | h :: t => if c = '.' then [] :: h :: t else (c :: h) :: t

/-- doc.split(".")[1] (build.py 377): the second dot-separated component
of the document filename (the format key, e.g. "pdf"). -/
def targKey (doc : String) : String := ⟨(splitDot doc.data).getD 1 []⟩

/-- The workspace path for one document (build.py 368). -/
def workPath (buildDir doc : String) : String := buildDir ++ "/" ++ doc ++ ".workdir"

/-- os.symlink: raises (FileExistsError) when the link path exists,
otherwise records the new link. -/
def symlinkOp (l t : String) (st : WsState) : Except String WsState :=
  if st.links.any (fun p => p.1 == l) then Except.error l
  else Except.ok { st with links := st.links ++ [(l, t)] }

/-- One iteration of _workdir_setup for document `doc` (build.py
367-378): reuse an existing workspace directory without re-linking, or
create it and link src, docs-resources and assets, then record the
work_dir mapping. -/
def workdirSetupOne (buildDir rootPath : String) (st : WsState) (doc : String) :
    Except String WsState :=
  let wp := workPath buildDir doc
  if wp ∈ st.dirs then
    Except.ok { st with workMap := setWorkMap st.workMap (targKey doc) wp }
  else
    match symlinkOp (wp ++ "/src") (rootPath ++ "/src") { st with dirs := st.dirs ++ [wp] } with
    | Except.error e => Except.error e
    | Except.ok st2 =>
        match symlinkOp (wp ++ "/docs-resources") (rootPath ++ "/docs-resources") st2 with
        | Except.error e => Except.error e
        | Except.ok st3 =>
            match symlinkOp (wp ++ "/assets") (rootPath ++ "/assets") st3 with
            | Except.error e => Except.error e
            | Except.ok st4 =>
                Except.ok { st4 with workMap := setWorkMap st4.workMap (targKey doc) wp }

/-- _workdir_setup (build.py 365-378): the loop over self.docs. -/
def workdir_setup (buildDir rootPath : String) : List String → WsState →
    Except String WsState
  | [], st => Except.ok st
  | d :: ds, st =>
      match workdirSetupOne buildDir rootPath st d with
      | Except.error e => Except.error e
      | Except.ok st' => workdir_setup buildDir rootPath ds st'

theorem symlinkOp_ok_dirs (l t : String) (s s' : WsState)
    (h : symlinkOp l t s = Except.ok s') : s'.dirs = s.dirs := by
  unfold symlinkOp at h
  by_cases hc : s.links.any (fun p => p.1 == l) = true
  · rw [if_pos hc] at h
    exact absurd h (by simp)
  · rw [if_neg hc] at h
    have := Except.ok.inj h
    rw [← this]

/-- One setup step puts the document's workspace path into the directory
set and preserves every directory already present. -/
theorem workdirSetupOne_dirs (bd rp : String) (st : WsState) (d : String) (st' : WsState)
    (h : workdirSetupOne bd rp st d = Except.ok st') :
    workPath bd d ∈ st'.dirs ∧ ∀ x ∈ st.dirs, x ∈ st'.dirs := by
  unfold workdirSetupOne at h
  by_cases hmem : workPath bd d ∈ st.dirs
  · rw [if_pos hmem] at h
    have hst : st' = { st with workMap := setWorkMap st.workMap (targKey d) (workPath bd d) } :=
      (Except.ok.inj h).symm
    subst hst
    exact ⟨hmem, fun x hx => hx⟩
  · rw [if_neg hmem] at h
    split at h
    next e heq2 => exact absurd h (by simp)
    next st2 heq2 =>
      split at h
      next e heq3 => exact absurd h (by simp)
      next st3 heq3 =>
        split at h
        next e heq4 => exact absurd h (by simp)
        next st4 heq4 =>
          have hst : st' = { st4 with
              workMap := setWorkMap st4.workMap (targKey d) (workPath bd d) } :=
            (Except.ok.inj h).symm
          have d2 := symlinkOp_ok_dirs _ _ _ _ heq2
          have d3 := symlinkOp_ok_dirs _ _ _ _ heq3
          have d4 := symlinkOp_ok_dirs _ _ _ _ heq4
          subst hst
          constructor
          · show workPath bd d ∈ st4.dirs
            rw [d4, d3, d2]
            exact List.mem_append_right _ (by simp)
          · intro x hx
            show x ∈ st4.dirs
            rw [d4, d3, d2]
            exact List.mem_append_left _ hx

/-- The setup loop preserves every directory already present. -/
theorem workdir_setup_dirs_mono (bd rp : String) : ∀ (docs : List String) (st st' : WsState),
    workdir_setup bd rp docs st = Except.ok st' → ∀ x ∈ st.dirs, x ∈ st'.dirs
  | [], st, st', h, x, hx => by
      have : st = st' := Except.ok.inj h
      rw [← this]; exact hx
  | d :: ds, st, st', h, x, hx => by
      unfold workdir_setup at h
      split at h
      next e heq => exact absurd h (by simp)
      next st1 heq =>
        exact workdir_setup_dirs_mono bd rp ds st1 st' h x
          ((workdirSetupOne_dirs bd rp st d st1 heq).2 x hx)

/-- After a successful setup run, every requested document's workspace
directory exists. -/
theorem workdir_setup_mem (bd rp : String) : ∀ (docs : List String) (st st' : WsState),
    workdir_setup bd rp docs st = Except.ok st' → ∀ d ∈ docs, workPath bd d ∈ st'.dirs
  | [], _, _, _, d, hd => by simp at hd
  | d0 :: ds, st, st', h, d, hd => by
      unfold workdir_setup at h
      split at h
      next e heq => exact absurd h (by simp)
      next st1 heq =>
        rcases List.mem_cons.mp hd with rfl | hd'
        · exact workdir_setup_dirs_mono bd rp ds st1 st' h _
            (workdirSetupOne_dirs bd rp st d st1 heq).1
        · exact workdir_setup_mem bd rp ds st1 st' h d hd'

/-- When every requested workspace directory already exists, the setup
run succeeds, takes the reuse branch for every document, creates no
directory and no link, and only rewrites the work_dir mapping. -/
theorem workdir_setup_reuse (bd rp : String) : ∀ (docs : List String) (st : WsState),
    (∀ d ∈ docs, workPath bd d ∈ st.dirs) →
    ∃ st', workdir_setup bd rp docs st = Except.ok st'
      ∧ st'.dirs = st.dirs ∧ st'.links = st.links
  | [], st, _ => ⟨st, rfl, rfl, rfl⟩
  | d :: ds, st, hall => by
      have hd : workPath bd d ∈ st.dirs := hall d (List.mem_cons_self d ds)
      have h1 : workdirSetupOne bd rp st d =
          Except.ok { st with workMap := setWorkMap st.workMap (targKey d) (workPath bd d) } := by
        unfold workdirSetupOne
        rw [if_pos hd]
      obtain ⟨st', hrun, hdirs, hlinks⟩ := workdir_setup_reuse bd rp ds
        { st with workMap := setWorkMap st.workMap (targKey d) (workPath bd d) }
        (fun a ha => hall a (List.mem_cons_of_mem d ha))
      refine ⟨st', ?_, hdirs, hlinks⟩
      unfold workdir_setup
      rw [h1]
      exact hrun

/-- C6: workspace setup is idempotent: if a run of _workdir_setup over
the document list succeeds, running it again without deleting anything
in between succeeds too (no error from os.symlink), creates no
directory and no symbolic link (an existing workspace directory is
reused as-is without re-linking), leaving the directory and link sets
exactly as after the first run. -/
theorem claim_C6_workdir_setup_idempotent (bd rp : String) (docs : List String)
    (st st' : WsState) (h : workdir_setup bd rp docs st = Except.ok st') :
    ∃ st'', workdir_setup bd rp docs st' = Except.ok st''
      ∧ st''.dirs = st'.dirs ∧ st''.links = st'.links :=
  workdir_setup_reuse bd rp docs st' (workdir_setup_mem bd rp docs st st' h)

theorem claim_C6_workdir_setup_idempotent_witness :
    ∃ st'', workdir_setup "build" "/repo" ["openrisc-manual.pdf"]
        ⟨["build/openrisc-manual.pdf.workdir"],
         [("build/openrisc-manual.pdf.workdir/src", "/repo/src"),
          ("build/openrisc-manual.pdf.workdir/docs-resources", "/repo/docs-resources"),
          ("build/openrisc-manual.pdf.workdir/assets", "/repo/assets")],
         [("pdf", "build/openrisc-manual.pdf.workdir")]⟩ = Except.ok st''
      ∧ st''.dirs = (⟨["build/openrisc-manual.pdf.workdir"],
         [("build/openrisc-manual.pdf.workdir/src", "/repo/src"),
          ("build/openrisc-manual.pdf.workdir/docs-resources", "/repo/docs-resources"),
          ("build/openrisc-manual.pdf.workdir/assets", "/repo/assets")],
         [("pdf", "build/openrisc-manual.pdf.workdir")]⟩ : WsState).dirs
      ∧ st''.links = (⟨["build/openrisc-manual.pdf.workdir"],
         [("build/openrisc-manual.pdf.workdir/src", "/repo/src"),
          ("build/openrisc-manual.pdf.workdir/docs-resources", "/repo/docs-resources"),
          ("build/openrisc-manual.pdf.workdir/assets", "/repo/assets")],
         [("pdf", "build/openrisc-manual.pdf.workdir")]⟩ : WsState).links :=
  claim_C6_workdir_setup_idempotent "build" "/repo" ["openrisc-manual.pdf"]
    ⟨[], [], []⟩ _ rfl

/- ===================================================================
   Installed-package query (DocumentBuilder._check_package_installed,
   build.py 237-249).

   The function runs subprocess.run(["dpkg", "-s", package], check=True).
   That call has three possible outcomes: normal completion with exit
   status 0 (captured stdout), subprocess.CalledProcessError on a
   non-zero exit (check=True), or FileNotFoundError when the dpkg
   executable itself cannot be invoked — the same outcome space build.py
   itself acknowledges elsewhere (lines 274 and 361 catch
   FileNotFoundError for the node and bundle probes).  The function's
   try/except catches only CalledProcessError (returning False); a
   FileNotFoundError propagates to the caller. -/
inductive DpkgOutcome where
  | completed (stdout : String)
  | calledProcessError
  | fileNotFound
deriving DecidableEq

/-- Result of calling a Python function: a returned value or a
propagated exception. -/
inductive PyResult (α : Type) where
  | ret (a : α)
  | raised
deriving DecidableEq

/-- Python substring containment (the `in` operator on str). -/
def containsSub (pat : List Char) : List Char → Bool
  | [] => pat.isEmpty
  | c :: rest => isPrefixChars pat (c :: rest) || containsSub pat rest

/-- _check_package_installed (build.py 237-249): on completion, test for
the dpkg status line in stdout; on CalledProcessError return False; a
FileNotFoundError is not caught and propagates. -/
def check_package_installed (dpkg : String → DpkgOutcome) (package : String) : PyResult Bool :=
  match dpkg package with
  | DpkgOutcome.completed out =>
      PyResult.ret (containsSub ("Status: install ok installed".data) out.data)
  | DpkgOutcome.calledProcessError => PyResult.ret false
  | DpkgOutcome.fileNotFound => PyResult.raised

/-- C8 counterexample: when the dpkg executable itself is missing
(subprocess.run raises FileNotFoundError), the query does not return a
boolean at all — the exception propagates, contradicting "returns a
boolean and never raises". -/
theorem claim_C8_counterexample :
    check_package_installed (fun _ => DpkgOutcome.fileNotFound) "make" = PyResult.raised
    ∧ (PyResult.raised : PyResult Bool) ≠ PyResult.ret false
    ∧ (PyResult.raised : PyResult Bool) ≠ PyResult.ret true :=
  ⟨rfl, by decide, by decide⟩

/-- C8 (amended): for every package name, whenever the dpkg process can
be invoked at all (no FileNotFoundError), the query returns a boolean,
and any query failure in which dpkg itself exits non-zero (package
absent or package-manager error, the CalledProcessError case) yields
false rather than propagating an exception; only a missing dpkg
executable makes the query raise. -/
theorem claim_C8_query_failure_returns_false (dpkg : String → DpkgOutcome) (package : String) :
    (dpkg package ≠ DpkgOutcome.fileNotFound →
      ∃ b, check_package_installed dpkg package = PyResult.ret b)
    ∧ (dpkg package = DpkgOutcome.calledProcessError →
      check_package_installed dpkg package = PyResult.ret false) := by
  constructor
  · intro h
    cases hd : dpkg package with
    | completed out =>
        exact ⟨containsSub ("Status: install ok installed".data) out.data,
          by simp [check_package_installed, hd]⟩
    | calledProcessError =>
        exact ⟨false, by simp [check_package_installed, hd]⟩
    | fileNotFound => exact absurd hd h
  · intro h
    simp [check_package_installed, h]

theorem claim_C8_query_failure_returns_false_witness :
    (∃ b, check_package_installed (fun _ => DpkgOutcome.calledProcessError) "make" = PyResult.ret b)
    ∧ check_package_installed (fun _ => DpkgOutcome.calledProcessError) "make" = PyResult.ret false :=
  ⟨(claim_C8_query_failure_returns_false (fun _ => DpkgOutcome.calledProcessError) "make").1
      (by decide),
    (claim_C8_query_failure_returns_false (fun _ => DpkgOutcome.calledProcessError) "make").2 rfl⟩
